import Mathlib

/-!
Verification of the hierarchical cost-enforcement core of the m3 query
coordinator: the single-scope `Enforcer` (package `x/cost`), the tree-shaped
`ChainedEnforcer` (package `query/cost`), and the `AccountedBlock` wrapper
(package `query/block`).

Costs are `float64` in the source; they are embedded as exact rationals here,
which matches the arithmetic identities the source relies on (commutative
accumulation, exact cancellation on release). Mutable trackers are embedded as
cells of an explicit `Store` indexed by natural-number identifiers; metric
counters of the enforcer reporter live in the same `Store`.
-/

/-- The numeric cost unit. `type Cost float64` in the source, embedded as an
exact rational. -/
abbrev Cost := ℚ

/-- Modelled from the spec: `MaxCost` is the largest representable cost
(`math.MaxFloat64` in the source, which is not under src/). -/
def MaxCost : Cost := (2 : ℚ) ^ 1024 - (2 : ℚ) ^ 971

/-- `Limit{Threshold, Enabled}` from package `x/cost`. -/
structure Limit where
  Threshold : Cost
  Enabled : Bool
deriving DecidableEq

/-- Violation errors produced by the core, kept structural: `costExceeded`
covers both `defaultCostExceededError` (customMessage = none) and
`costExceededError` (customMessage = some msg); `wrapped` is the
`exceeded %s limit: %s` wrapping done by `ChainedEnforcer.wrapLocalResult`. -/
inductive CostError where
  | costExceeded (cost : Cost) (limit : Limit) (customMessage : Option String)
  | wrapped (resourceName : String) (inner : CostError)
deriving DecidableEq

/-- `Report{Cost, Error}` from package `x/cost`; a Go `error` is
`Option CostError`. -/
structure Report where
  Cost : Cost
  Error : Option CostError
deriving DecidableEq

/-- Modelled from the spec: the shared mutable state of the whole system.
`vals` holds the running total of every allocated tracker cell, `next` is the
next fresh cell identifier, and the two counters embed the
`over-limit` / `over-limit-and-enabled` metric counters of the enforcer
reporter. -/
structure Store where
  vals : Nat → Cost
  next : Nat
  overLimit : Nat
  overLimitAndEnabled : Nat

/-- The reporter call `ReportOverLimit(enabled)`: bumps the
`over-limit-and-enabled` counter when `enabled`, the `over-limit` counter
otherwise (source `enforcerMetrics.ReportOverLimit`). -/
def Store.reportOverLimit (s : Store) (enabled : Bool) : Store :=
  if enabled then { s with overLimitAndEnabled := s.overLimitAndEnabled + 1 }
  else { s with overLimit := s.overLimit + 1 }

/-- Modelled from the spec: a `Tracker` is a per-scope accumulator of current
cost (package `x/cost`, not under src/). A `normal` tracker owns one mutable
cell of the `Store`; the no-op variant stores nothing and always reports
zero. -/
inductive Tracker where
  | normal (id : Nat)
  | noop
deriving DecidableEq

/-- Modelled from the spec: `Tracker.Add(delta)` applies `delta` to the running
total of the scope and returns the new total; the no-op variant returns a fixed
zero cost and performs no storage. -/
def Tracker.Add (t : Tracker) (delta : Cost) (s : Store) : Cost × Store :=
  match t with
  | .noop => (0, s)
  | .normal i =>
    let newTotal := s.vals i + delta
    (newTotal, { s with vals := fun j => if j = i then newTotal else s.vals j })

/-- Modelled from the spec: `Tracker.Current()` is a snapshot read with no side
effects; the no-op variant always reports zero. -/
def Tracker.Current (t : Tracker) (s : Store) : Cost :=
  match t with
  | .noop => 0
  | .normal i => s.vals i

/-- Modelled from the spec: `NewTracker()` allocates a fresh tracker whose
total starts at zero. -/
def NewTracker (s : Store) : Tracker × Store :=
  (.normal s.next,
    { s with vals := fun j => if j = s.next then 0 else s.vals j, next := s.next + 1 })

/-- Modelled from the spec: `NewNoopTracker()`. -/
def NewNoopTracker : Tracker := Tracker.noop

/-- Modelled from the spec: a `LimitManager` supplies the current `Limit` of a
scope; the static implementation always returns the constructor-supplied
value (package `x/cost`, not under src/). -/
structure LimitManager where
  limit : Limit
deriving DecidableEq

/-- Modelled from the spec: `NewStaticLimitManager` with a default limit. -/
def NewStaticLimitManager (l : Limit) : LimitManager := ⟨l⟩

/-- `LimitManager.Limit()` returns the limit currently in effect. -/
def LimitManager.Limit (m : LimitManager) : Limit := m.limit

/-- `Enforcer` from package `x/cost`: an embedded `LimitManager`, a `Tracker`
and an optional custom violation message. The metrics reporter is embedded as
the counters of the `Store`. -/
structure Enforcer where
  limitManager : LimitManager
  tracker : Tracker
  costMsg : String
deriving DecidableEq

/-- `Enforcer.checkLimit` from the source: returns nil unless the limit is
enabled and `cost` has reached the threshold; only on that path it calls
`ReportOverLimit` and builds the violation error (default message when
`costMsg` is empty, custom otherwise). -/
def Enforcer.checkLimit (e : Enforcer) (cost : Cost) (limit : Limit) (s : Store) :
    Option CostError × Store :=
  if !limit.Enabled || decide (cost < limit.Threshold) then (none, s)
  else
    let s1 := s.reportOverLimit limit.Enabled
    if e.costMsg = "" then (some (CostError.costExceeded cost limit none), s1)
    else (some (CostError.costExceeded cost limit (some e.costMsg)), s1)

/-- `Enforcer.Add` from the source: apply the cost to the tracker, then check
the new total against the current limit. -/
def Enforcer.Add (e : Enforcer) (cost : Cost) (s : Store) : Report × Store :=
  let t := e.tracker.Add cost s
  let ck := e.checkLimit t.1 e.limitManager.Limit t.2
  ({ Cost := t.1, Error := ck.1 }, ck.2)

/-- `Enforcer.State` from the source: read the current total, the active limit
and the violation status without touching the tracker. -/
def Enforcer.State (e : Enforcer) (s : Store) : (Report × Limit) × Store :=
  let cost := e.tracker.Current s
  let l := e.limitManager.Limit
  let ck := e.checkLimit cost l s
  (({ Cost := cost, Error := ck.1 }, l), ck.2)

/-- `Enforcer.Clone` from the source: same `LimitManager` and message, but an
independent freshly allocated `Tracker`. -/
def Enforcer.Clone (e : Enforcer) (s : Store) : Enforcer × Store :=
  let t := NewTracker s
  ({ e with tracker := t.1 }, t.2)

/-- `noopManager`: a static manager whose limit is the maximum threshold,
disabled. -/
def noopManager : LimitManager :=
  NewStaticLimitManager { Threshold := MaxCost, Enabled := false }

/-- `noopEnforcer`: the process-wide no-op enforcer
(`NewEnforcer(noopManager, NewNoopTracker(), nil)`; a nil options value means
an empty custom message). -/
def noopEnforcer : Enforcer :=
  { limitManager := noopManager, tracker := NewNoopTracker, costMsg := "" }

/-- `NoopEnforcer()` from the source. -/
def NoopEnforcer : Enforcer := noopEnforcer

/-- `ChainedEnforcer` from `query/cost`: a scope label, a local enforcer, a
nilable parent, and the remaining per-level template enforcers. The Go struct
with a nilable `parent` field is split into a `root` and a `node`
constructor. -/
inductive ChainedEnforcer where
  | root (resourceName : String) (localEnf : Enforcer) (models : List Enforcer)
  | node (resourceName : String) (localEnf : Enforcer) (parent : ChainedEnforcer)
      (models : List Enforcer)

/-- The `resourceName` field. -/
def ChainedEnforcer.resourceName : ChainedEnforcer → String
  | .root n _ _ => n
  | .node n _ _ _ => n

/-- The `local` field (named `localEnf` here because `local` is reserved). -/
def ChainedEnforcer.localEnf : ChainedEnforcer → Enforcer
  | .root _ l _ => l
  | .node _ l _ _ => l

/-- The nilable `parent` field. -/
def ChainedEnforcer.parent : ChainedEnforcer → Option ChainedEnforcer
  | .root _ _ _ => none
  | .node _ _ p _ => some p

/-- The `models` field: remaining level templates. -/
def ChainedEnforcer.models : ChainedEnforcer → List Enforcer
  | .root _ _ ms => ms
  | .node _ _ _ ms => ms

/-- The tracker cell identifiers of a tracker (one for a normal tracker, none
for the no-op tracker). -/
def Tracker.ids : Tracker → List Nat
  | .normal i => [i]
  | .noop => []

/-- The tracker cell identifiers along a node and all of its ancestors, local
scope first. -/
def ChainedEnforcer.chainIds : ChainedEnforcer → List Nat
  | .root _ l _ => l.tracker.ids
  | .node _ l p _ => l.tracker.ids ++ p.chainIds

/-- `ChainedEnforcer.wrapLocalResult` from the source: wrap a local violation
with the resource name of this node; pass a clean report through. -/
def ChainedEnforcer.wrapLocalResult (ce : ChainedEnforcer) (localR : Report) : Report :=
  match localR.Error with
  | some e => { Cost := localR.Cost, Error := some (CostError.wrapped ce.resourceName e) }
  | none => localR

/-- `ChainedEnforcer.Add` from the source: the root applies the cost locally
and wraps any violation; an interior node applies the cost locally and to the
parent (which recurses further up), then reports the wrapped local violation
first, else the ancestor violation unwrapped, else the local report. -/
def ChainedEnforcer.Add : ChainedEnforcer → Cost → Store → Report × Store
  | ce@(.root _ l _), c, s =>
    let lr := l.Add c s
    (ce.wrapLocalResult lr.1, lr.2)
  | ce@(.node _ l p _), c, s =>
    let lr := l.Add c s
    let gr := p.Add c lr.2
    if lr.1.Error.isSome then (ce.wrapLocalResult lr.1, gr.2)
    else if gr.1.Error.isSome then gr
    else (lr.1, gr.2)

/-- `NewChainedEnforcerFromModels` from the source: rejects an empty model
list, otherwise the first template becomes the local enforcer of a parentless
root and the rest become the remaining levels. -/
def NewChainedEnforcerFromModels (rootResourceName : String) (models : List Enforcer) :
    Except String ChainedEnforcer :=
  match models with
  | [] => Except.error "must provide at least one EnforcerIF instance for a ChainedEnforcer"
  | m :: rest => Except.ok (ChainedEnforcer.root rootResourceName m rest)

/-- `noopChainedEnforcer`: the shared no-op node,
`NewChainedEnforcerFromModels("", [noopEnforcer])`. -/
def noopChainedEnforcer : ChainedEnforcer :=
  ChainedEnforcer.root "" noopEnforcer []

/-- `NoopChainedEnforcer()` from the source. -/
def NoopChainedEnforcer : ChainedEnforcer := noopChainedEnforcer

/-- `ChainedEnforcer.Child` from the source: with no remaining level templates
return the shared no-op node; otherwise clone the next template as the fresh
local enforcer of a new node whose parent is the receiver. -/
def ChainedEnforcer.Child (ce : ChainedEnforcer) (resourceName : String) (s : Store) :
    ChainedEnforcer × Store :=
  match ce.models with
  | [] => (noopChainedEnforcer, s)
  | m :: rest =>
    let cl := m.Clone s
    (ChainedEnforcer.node resourceName cl.1 ce rest, cl.2)

/-- `ChainedEnforcer.Clone` from the source: returns the receiver itself. -/
def ChainedEnforcer.Clone (ce : ChainedEnforcer) : ChainedEnforcer := ce

/-- `ChainedEnforcer.State` from the source: the state of the local scope. -/
def ChainedEnforcer.State (ce : ChainedEnforcer) (s : Store) : (Report × Limit) × Store :=
  ce.localEnf.State s

/-- `ChainedEnforcer.Release` from the source: read the current local cost via
`State`, then `Add` its negation (the report of that `Add` is discarded). -/
def ChainedEnforcer.Release (ce : ChainedEnforcer) (s : Store) : Store :=
  let st := ce.localEnf.State s
  (ce.Add (-(st.1.1.Cost)) st.2).2

/-- Modelled from the spec: the `Block` collaborator (an interface not under
src/), reduced to the result its `Close` returns. -/
structure Block where
  closeErr : Option String

/-- `AccountedBlock` from `query/block`: a wrapped block plus the enforcer
owned for the lifetime of this unit of work. -/
structure AccountedBlock where
  block : Block
  enforcer : ChainedEnforcer

/-- `NewAccountedBlock` from the source. -/
def NewAccountedBlock (wrapped : Block) (enforcer : ChainedEnforcer) : AccountedBlock :=
  { block := wrapped, enforcer := enforcer }

/-- `AccountedBlock.Close` from the source: release the enforcer, then close
the wrapped block and return its result. -/
def AccountedBlock.Close (ab : AccountedBlock) (s : Store) : Option String × Store :=
  let s1 := ab.enforcer.Release s
  (ab.block.closeErr, s1)

/-- Build `n` children of `p` in sequence via `Child`, threading the store. -/
def mkChildren (p : ChainedEnforcer) (rn : String) : Nat → Store → List ChainedEnforcer × Store
  | 0, s => ([], s)
  | Nat.succ n, s =>
    let c := p.Child rn s
    let rest := mkChildren p rn n c.2
    (c.1 :: rest.1, rest.2)

/-- Run a serialized sequence of `Add` calls against a two-level tree: an
operation `(0, c)` adds `c` at the root, `(k+1, c)` adds `c` at child `k`
(out-of-range indices default to the root). -/
def runOps (rootCE : ChainedEnforcer) (children : List ChainedEnforcer) :
    List (Nat × Cost) → Store → Store
  | [], s => s
  | op :: rest, s =>
    let target := match op.1 with
      | 0 => rootCE
      | Nat.succ k => children.getD k rootCE
    runOps rootCE children rest (target.Add op.2 s).2

/-- A single-scope test enforcer with a static limit and a given tracker
cell. -/
def mkTestEnforcer (threshold : Cost) (enabled : Bool) (id : Nat) : Enforcer :=
  { limitManager := NewStaticLimitManager { Threshold := threshold, Enabled := enabled },
    tracker := Tracker.normal id, costMsg := "" }

/-- Global-level fixture: threshold 10, enabled, cell 0. -/
def gEnf : Enforcer := mkTestEnforcer 10 true 0

/-- Query-level fixture: threshold 5, enabled, cell 1. -/
def qEnf : Enforcer := mkTestEnforcer 5 true 1

/-- A store with two allocated cells, both zero, counters zero. -/
def st0 : Store := { vals := fun _ => 0, next := 2, overLimit := 0, overLimitAndEnabled := 0 }

/-- Parent fixture with a loose limit (threshold 100). -/
def root100 : ChainedEnforcer := ChainedEnforcer.root "global" (mkTestEnforcer 100 true 0) []

/-- Parent fixture with a tight limit (threshold 5). -/
def root5 : ChainedEnforcer := ChainedEnforcer.root "global" (mkTestEnforcer 5 true 0) []

/-- Child fixture with a tight local limit under the loose parent. -/
def child5of100 : ChainedEnforcer := ChainedEnforcer.node "query" qEnf root100 []

/-- Child fixture with a loose local limit under the tight parent. -/
def child100of5 : ChainedEnforcer :=
  ChainedEnforcer.node "query" (mkTestEnforcer 100 true 1) root5 []

/-! ## Store-effect lemmas -/

lemma Store.reportOverLimit_vals (s : Store) (b : Bool) (j : Nat) :
    (s.reportOverLimit b).vals j = s.vals j := by
  unfold Store.reportOverLimit; split <;> rfl

lemma Store.reportOverLimit_next (s : Store) (b : Bool) :
    (s.reportOverLimit b).next = s.next := by
  unfold Store.reportOverLimit; split <;> rfl

lemma Enforcer.checkLimit_vals (e : Enforcer) (c : Cost) (l : Limit) (s : Store) (j : Nat) :
    ((e.checkLimit c l s).2).vals j = s.vals j := by
  unfold Enforcer.checkLimit
  split
  · rfl
  · split <;> simp [Store.reportOverLimit_vals]

lemma Enforcer.checkLimit_next (e : Enforcer) (c : Cost) (l : Limit) (s : Store) :
    ((e.checkLimit c l s).2).next = s.next := by
  unfold Enforcer.checkLimit
  split
  · rfl
  · split <;> simp [Store.reportOverLimit_next]

lemma Tracker.trackerAdd_vals (t : Tracker) (c : Cost) (s : Store) (j : Nat) :
    ((t.Add c s).2).vals j = s.vals j + (t.ids.count j : ℚ) * c := by
  cases t with
  | noop => simp [Tracker.Add, Tracker.ids]
  | normal i =>
    by_cases h : j = i
    · subst h
      simp [Tracker.Add, Tracker.ids, List.count_singleton]
    · simp [Tracker.Add, Tracker.ids, h, List.count_singleton]

lemma Tracker.trackerAdd_next (t : Tracker) (c : Cost) (s : Store) :
    ((t.Add c s).2).next = s.next := by
  cases t <;> rfl

lemma Enforcer.enforcerAdd_vals (e : Enforcer) (c : Cost) (s : Store) (j : Nat) :
    ((e.Add c s).2).vals j = s.vals j + (e.tracker.ids.count j : ℚ) * c := by
  simp [Enforcer.Add, Enforcer.checkLimit_vals, Tracker.trackerAdd_vals]

lemma Enforcer.enforcerAdd_next (e : Enforcer) (c : Cost) (s : Store) :
    ((e.Add c s).2).next = s.next := by
  simp [Enforcer.Add, Enforcer.checkLimit_next, Tracker.trackerAdd_next]

lemma Enforcer.State_vals (e : Enforcer) (s : Store) (j : Nat) :
    ((e.State s).2).vals j = s.vals j := by
  simp [Enforcer.State, Enforcer.checkLimit_vals]

lemma Enforcer.State_next (e : Enforcer) (s : Store) :
    ((e.State s).2).next = s.next := by
  simp [Enforcer.State, Enforcer.checkLimit_next]

lemma Enforcer.State_report_Cost (e : Enforcer) (s : Store) :
    ((e.State s).1.1).Cost = e.tracker.Current s := rfl

lemma ChainedEnforcer.chainedAdd_vals (ce : ChainedEnforcer) (c : Cost) (s : Store) (j : Nat) :
    ((ce.Add c s).2).vals j = s.vals j + (ce.chainIds.count j : ℚ) * c := by
  induction ce generalizing s with
  | root rn l ms =>
    simp [ChainedEnforcer.Add, ChainedEnforcer.chainIds, Enforcer.enforcerAdd_vals]
  | node rn l p ms ih =>
    by_cases h1 : ((l.Add c s).1.Error.isSome) = true
    · simp only [ChainedEnforcer.Add, h1, if_true]
      simp [ih, Enforcer.enforcerAdd_vals, ChainedEnforcer.chainIds, List.count_append]
      ring
    · by_cases h2 : ((p.Add c (l.Add c s).2).1.Error.isSome) = true <;>
      · simp only [ChainedEnforcer.Add, h1, h2, if_true, if_false, Bool.false_eq_true]
        simp [ih, Enforcer.enforcerAdd_vals, ChainedEnforcer.chainIds, List.count_append]
        ring

lemma ChainedEnforcer.chainedAdd_next (ce : ChainedEnforcer) (c : Cost) (s : Store) :
    ((ce.Add c s).2).next = s.next := by
  induction ce generalizing s with
  | root rn l ms =>
    simp [ChainedEnforcer.Add, Enforcer.enforcerAdd_next]
  | node rn l p ms ih =>
    by_cases h1 : ((l.Add c s).1.Error.isSome) = true
    · simp only [ChainedEnforcer.Add, h1, if_true]
      simp [ih, Enforcer.enforcerAdd_next]
    · by_cases h2 : ((p.Add c (l.Add c s).2).1.Error.isSome) = true <;>
      · simp only [ChainedEnforcer.Add, h1, h2, if_true, if_false, Bool.false_eq_true]
        simp [ih, Enforcer.enforcerAdd_next]

lemma ChainedEnforcer.Release_vals (ce : ChainedEnforcer) (s : Store) (j : Nat) :
    (ce.Release s).vals j
      = s.vals j - (ce.chainIds.count j : ℚ) * (ce.localEnf.tracker.Current s) := by
  have hcur : ce.localEnf.tracker.Current ((ce.localEnf.State s).2)
      = ce.localEnf.tracker.Current s := by
    cases h : ce.localEnf.tracker with
    | noop => simp [Tracker.Current]
    | normal i => simp [Tracker.Current, Enforcer.State_vals]
  simp only [ChainedEnforcer.Release, ChainedEnforcer.chainedAdd_vals, Enforcer.State_report_Cost,
    Enforcer.State_vals]
  ring

lemma ChainedEnforcer.Release_next (ce : ChainedEnforcer) (s : Store) :
    (ce.Release s).next = s.next := by
  simp [ChainedEnforcer.Release, ChainedEnforcer.chainedAdd_next, Enforcer.State_next]

lemma Enforcer.Clone_spec (e : Enforcer) (s : Store) :
    (e.Clone s).1 = { e with tracker := Tracker.normal s.next } ∧
    (e.Clone s).2.next = s.next + 1 ∧
    (e.Clone s).2.vals s.next = 0 ∧
    (∀ j, j ≠ s.next → (e.Clone s).2.vals j = s.vals j) := by
  refine ⟨rfl, rfl, by simp [Enforcer.Clone, NewTracker], ?_⟩
  intro j hj
  simp [Enforcer.Clone, NewTracker, hj]

lemma ChainedEnforcer.Child_next (ce : ChainedEnforcer) (rn : String) (s : Store) :
    s.next ≤ ((ce.Child rn s).2).next := by
  unfold ChainedEnforcer.Child
  cases ce.models with
  | nil => simp
  | cons m rest => simp [Enforcer.Clone, NewTracker]

lemma ChainedEnforcer.Child_vals (ce : ChainedEnforcer) (rn : String) (s : Store)
    (j : Nat) (hj : j < s.next) :
    ((ce.Child rn s).2).vals j = s.vals j := by
  unfold ChainedEnforcer.Child
  cases ce.models with
  | nil => simp
  | cons m rest => simp [Enforcer.Clone, NewTracker, Nat.ne_of_lt hj]

lemma mkChildren_next (p : ChainedEnforcer) (rn : String) :
    ∀ n s, s.next ≤ ((mkChildren p rn n s).2).next := by
  intro n
  induction n with
  | zero => intro s; exact Nat.le_refl _
  | succ n ih =>
    intro s
    exact Nat.le_trans (ChainedEnforcer.Child_next p rn s) (ih _)

lemma mkChildren_vals (p : ChainedEnforcer) (rn : String) :
    ∀ n s j, j < s.next → ((mkChildren p rn n s).2).vals j = s.vals j := by
  intro n
  induction n with
  | zero => intro s j _; rfl
  | succ n ih =>
    intro s j hj
    have h1 : j < ((p.Child rn s).2).next := Nat.lt_of_lt_of_le hj (ChainedEnforcer.Child_next p rn s)
    calc ((mkChildren p rn (n + 1) s).2).vals j
        = ((mkChildren p rn n (p.Child rn s).2).2).vals j := rfl
      _ = ((p.Child rn s).2).vals j := ih _ j h1
      _ = s.vals j := ChainedEnforcer.Child_vals p rn s j hj

lemma mkChildren_mem (p : ChainedEnforcer) (rn : String) (m : Enforcer) (rest : List Enforcer)
    (hm : p.models = m :: rest) :
    ∀ n s ch, ch ∈ (mkChildren p rn n s).1 →
      ∃ t, s.next ≤ t ∧
        ch = ChainedEnforcer.node rn { m with tracker := Tracker.normal t } p rest := by
  intro n
  induction n with
  | zero => intro s ch h; exact absurd h (List.not_mem_nil ch)
  | succ n ih =>
    intro s ch h
    have hchild : p.Child rn s
        = (ChainedEnforcer.node rn { m with tracker := Tracker.normal s.next } p rest,
           (m.Clone s).2) := by
      unfold ChainedEnforcer.Child
      rw [hm]
      rfl
    have hmem : ch = (p.Child rn s).1 ∨ ch ∈ (mkChildren p rn n (p.Child rn s).2).1 := by
      have : ch ∈ (p.Child rn s).1 :: (mkChildren p rn n (p.Child rn s).2).1 := h
      simpa using this
    rcases hmem with h1 | h2
    · refine ⟨s.next, Nat.le_refl _, ?_⟩
      rw [h1, hchild]
    · obtain ⟨t, ht, hch⟩ := ih (p.Child rn s).2 ch h2
      refine ⟨t, ?_, hch⟩
      exact Nat.le_trans (ChainedEnforcer.Child_next p rn s) ht

lemma getD_mem_or {α : Type} (l : List α) (k : Nat) (d : α) :
    l.getD k d ∈ l ∨ l.getD k d = d := by
  induction l generalizing k with
  | nil => right; cases k <;> rfl
  | cons a t ih =>
    cases k with
    | zero => left; simp
    | succ k =>
      rcases ih k with h | h
      · left; simp only [List.getD_cons_succ]; exact List.mem_cons_of_mem a h
      · right; simpa using h

lemma runOps_vals (rootCE : ChainedEnforcer) (children : List ChainedEnforcer) (r : Nat)
    (h1 : rootCE.chainIds.count r = 1)
    (h2 : ∀ ch ∈ children, ch.chainIds.count r = 1) :
    ∀ ops s, (runOps rootCE children ops s).vals r
      = s.vals r + ((ops.map Prod.snd).sum : ℚ) := by
  intro ops
  induction ops with
  | nil => intro s; simp [runOps]
  | cons op rest ih =>
    intro s
    obtain ⟨i, c⟩ := op
    have hred : runOps rootCE children ((i, c) :: rest) s
        = runOps rootCE children rest
            (((match i with
               | 0 => rootCE
               | Nat.succ k => children.getD k rootCE).Add c s).2) := rfl
    have ht : (match i with
        | 0 => rootCE
        | Nat.succ k => children.getD k rootCE).chainIds.count r = 1 := by
      cases i with
      | zero => exact h1
      | succ k =>
        show (children.getD k rootCE).chainIds.count r = 1
        rcases getD_mem_or children k rootCE with h | h
        · exact h2 _ h
        · rw [h]; exact h1
    rw [hred, ih, ChainedEnforcer.chainedAdd_vals, ht]
    push_cast [List.map_cons, List.sum_cons]
    ring

lemma ChainedEnforcer.localId_mem_chainIds (ce : ChainedEnforcer) (i : Nat)
    (h : ce.localEnf.tracker = Tracker.normal i) : i ∈ ce.chainIds := by
  cases ce with
  | root rn l ms =>
    simp only [ChainedEnforcer.localEnf] at h
    simp [ChainedEnforcer.chainIds, h, Tracker.ids]
  | node rn l p ms =>
    simp only [ChainedEnforcer.localEnf] at h
    simp [ChainedEnforcer.chainIds, h, Tracker.ids]

/-! ## Claim theorems -/

/-- Claim C1: on a ChainedEnforcer node that has a parent, `Add` diagnoses the
local scope first: a local violation is returned wrapped with the resource
name of this node, even when the ancestor chain simultaneously reports a
violation of its own; only when the local scope is clean and an ancestor
reports a violation is the ancestor report returned unwrapped; and with no
violation anywhere the local report is returned. -/
theorem ChainedEnforcer.Add_precedence (rn : String) (l : Enforcer) (p : ChainedEnforcer)
    (ms : List Enforcer) (c : Cost) (s : Store) :
    (∀ e, (l.Add c s).1.Error = some e →
      (ChainedEnforcer.node rn l p ms).Add c s
        = ({ Cost := (l.Add c s).1.Cost, Error := some (CostError.wrapped rn e) },
           (p.Add c (l.Add c s).2).2)) ∧
    ((l.Add c s).1.Error = none → (p.Add c (l.Add c s).2).1.Error.isSome →
      (ChainedEnforcer.node rn l p ms).Add c s = p.Add c (l.Add c s).2) ∧
    ((l.Add c s).1.Error = none → (p.Add c (l.Add c s).2).1.Error = none →
      (ChainedEnforcer.node rn l p ms).Add c s
        = ((l.Add c s).1, (p.Add c (l.Add c s).2).2)) := by
  refine ⟨?_, ?_, ?_⟩
  · intro e he
    simp [ChainedEnforcer.Add, he, ChainedEnforcer.wrapLocalResult,
      ChainedEnforcer.resourceName]
  · intro he hg
    simp [ChainedEnforcer.Add, he, hg]
  · intro he hg
    simp [ChainedEnforcer.Add, he, hg]

/-- Witness for C1 at the precedence scenarios of the spec: with local
threshold 5 under parent threshold 100, adding 6 reports the violation of the
child scope wrapped with the child resource name; with local threshold 100
under parent threshold 5, adding 6 reports the ancestor violation and still
carries cost 6. -/
theorem ChainedEnforcer.Add_precedence_witness :
    ((ChainedEnforcer.node "query" qEnf root100 []).Add 6 st0).1.Error
      = some (CostError.wrapped "query"
          (CostError.costExceeded 6 { Threshold := 5, Enabled := true } none)) ∧
    ((ChainedEnforcer.node "query" (mkTestEnforcer 100 true 1) root5 []).Add 6 st0).1
      = { Cost := 6,
          Error := some (CostError.wrapped "global"
            (CostError.costExceeded 6 { Threshold := 5, Enabled := true } none)) } := by
  constructor
  · have h := (ChainedEnforcer.Add_precedence "query" qEnf root100 [] 6 st0).1
      (CostError.costExceeded 6 { Threshold := 5, Enabled := true } none)
      (by norm_num [Enforcer.Add, Enforcer.checkLimit, Tracker.Add, qEnf, mkTestEnforcer,
        st0, NewStaticLimitManager, LimitManager.Limit])
    rw [h]
  · have h := (ChainedEnforcer.Add_precedence "query" (mkTestEnforcer 100 true 1) root5 []
      6 st0).2.1
      (by norm_num [Enforcer.Add, Enforcer.checkLimit, Tracker.Add, mkTestEnforcer,
        st0, NewStaticLimitManager, LimitManager.Limit])
      (by norm_num [ChainedEnforcer.Add, ChainedEnforcer.wrapLocalResult,
        ChainedEnforcer.resourceName, Enforcer.Add, Enforcer.checkLimit, Tracker.Add,
        mkTestEnforcer, root5, st0, NewStaticLimitManager, LimitManager.Limit,
        Store.reportOverLimit])
    rw [h]
    norm_num [ChainedEnforcer.Add, ChainedEnforcer.wrapLocalResult,
      ChainedEnforcer.resourceName, Enforcer.Add, Enforcer.checkLimit, Tracker.Add,
      mkTestEnforcer, root5, st0, NewStaticLimitManager, LimitManager.Limit,
      Store.reportOverLimit]

/-- Claim C4: every `Add` call applies the cost to the tracker cell of its own
scope and of every ancestor scope, no matter which scope (if any) rejects: the
resulting store update is the same whether or not a violation is reported, so
a violation never prevents or rolls back the accounting at any scope. -/
theorem ChainedEnforcer.Add_always_applies (ce : ChainedEnforcer) (c : Cost) (s : Store)
    (hnd : ce.chainIds.Nodup) :
    (∀ j ∈ ce.chainIds, ((ce.Add c s).2).vals j = s.vals j + c) ∧
    (∀ j, j ∉ ce.chainIds → ((ce.Add c s).2).vals j = s.vals j) := by
  constructor
  · intro j hj
    rw [ChainedEnforcer.chainedAdd_vals, List.count_eq_one_of_mem hnd hj]
    push_cast
    ring
  · intro j hj
    rw [ChainedEnforcer.chainedAdd_vals, List.count_eq_zero_of_not_mem hj]
    push_cast
    ring

/-- Witness for C4: adding 6 at a child whose local limit (threshold 5) is
violated still adds 6 to the tracker cell of the parent scope. -/
theorem ChainedEnforcer.Add_always_applies_witness :
    ((child5of100.Add 6 st0).2).vals 0 = st0.vals 0 + 6 :=
  (ChainedEnforcer.Add_always_applies child5of100 6 st0 (by decide)).1 0 (by decide)

/-- Claim C7: constructing a ChainedEnforcer tree from an empty list of level
templates fails with a configuration error and returns no tree; construction
from a non-empty list succeeds with the first template as the local enforcer
of the root and a nil parent for the root. -/
theorem NewChainedEnforcerFromModels_spec (rn : String) :
    (NewChainedEnforcerFromModels rn []
      = Except.error "must provide at least one EnforcerIF instance for a ChainedEnforcer") ∧
    (∀ (m : Enforcer) (ms : List Enforcer),
      NewChainedEnforcerFromModels rn (m :: ms) = Except.ok (ChainedEnforcer.root rn m ms) ∧
      (ChainedEnforcer.root rn m ms).localEnf = m ∧
      (ChainedEnforcer.root rn m ms).parent = none) :=
  ⟨rfl, fun _ _ => ⟨rfl, rfl, rfl⟩⟩

/-- Witness for C7 at a concrete resource name. -/
theorem NewChainedEnforcerFromModels_spec_witness :
    NewChainedEnforcerFromModels "global" []
      = Except.error "must provide at least one EnforcerIF instance for a ChainedEnforcer" :=
  (NewChainedEnforcerFromModels_spec "global").1

/-- Claim C8: `Child` on a node whose level templates are exhausted returns
the shared no-op node (no failure, no panic); that node never rejects any
`Add` (its report always carries cost 0 and a nil error, and its limit is the
maximum threshold, disabled) and always reports zero cost. -/
theorem ChainedEnforcer.Child_exhausted_noop (ce : ChainedEnforcer) (rn : String) (s : Store)
    (hm : ce.models = []) :
    ce.Child rn s = (noopChainedEnforcer, s) ∧
    (∀ c s2, noopChainedEnforcer.Add c s2 = ({ Cost := 0, Error := none }, s2)) ∧
    noopChainedEnforcer.localEnf.limitManager.Limit
      = { Threshold := MaxCost, Enabled := false } ∧
    (∀ s2, (noopChainedEnforcer.State s2).1.1 = { Cost := 0, Error := none }) := by
  refine ⟨?_, fun _ _ => rfl, rfl, fun _ => rfl⟩
  unfold ChainedEnforcer.Child
  rw [hm]

/-- Witness for C8: the shared no-op node itself has no remaining templates,
and its own Child call degrades to the shared no-op node with the store
untouched. -/
theorem ChainedEnforcer.Child_exhausted_noop_witness :
    noopChainedEnforcer.Child "block" st0 = (noopChainedEnforcer, st0) :=
  (ChainedEnforcer.Child_exhausted_noop noopChainedEnforcer "block" st0 rfl).1

/-- Claim C10: `ChainedEnforcer.Clone` returns the receiver itself, sharing
its tracker, parent reference and remaining level templates, so an `Add`
through the result of `Clone` is exactly an `Add` on the original node;
whereas `Enforcer.Clone` produces an enforcer with an independent, freshly
zeroed tracker cell distinct from the original one. -/
theorem ChainedEnforcer.Clone_returns_self (ce : ChainedEnforcer) (e : Enforcer) (s : Store) :
    ce.Clone = ce ∧
    (∀ c s2, ce.Clone.Add c s2 = ce.Add c s2) ∧
    ce.Clone.localEnf = ce.localEnf ∧
    ce.Clone.parent = ce.parent ∧
    ce.Clone.models = ce.models ∧
    (e.Clone s).1.tracker = Tracker.normal s.next ∧
    (e.Clone s).1.tracker.Current (e.Clone s).2 = 0 ∧
    (e.Clone s).1.limitManager = e.limitManager ∧
    (∀ i, e.tracker = Tracker.normal i → i < s.next → (e.Clone s).1.tracker ≠ e.tracker) := by
  refine ⟨rfl, fun _ _ => rfl, rfl, rfl, rfl, rfl, ?_, rfl, ?_⟩
  · simp [Enforcer.Clone, NewTracker, Tracker.Current]
  · intro i hi hlt heq
    have h1 : (e.Clone s).1.tracker = Tracker.normal s.next := rfl
    rw [h1, hi] at heq
    injection heq with h2
    omega

/-- Witness for C10: cloning the global fixture enforcer in the fixture store
yields a tracker cell distinct from the original cell 0. -/
theorem ChainedEnforcer.Clone_returns_self_witness :
    (gEnf.Clone st0).1.tracker ≠ gEnf.tracker :=
  (ChainedEnforcer.Clone_returns_self noopChainedEnforcer gEnf st0).2.2.2.2.2.2.2.2
    0 rfl (by decide)

/-- Claim C3: for every parent node, cost C and limit configuration, creating
a child via `Child`, adding C to the child and then calling `Release` on the
child leaves the tracked total of the parent unchanged from its value before
the child was created; `Release` reads the local cost via `State` and calls
`Add` with its negation, which propagates up every ancestor and exactly
cancels the contribution of the child everywhere it was added. -/
theorem ChainedEnforcer.release_cancels_contribution (p : ChainedEnforcer) (rn : String)
    (C : Cost) (s : Store) (hWF : ∀ i ∈ p.chainIds, i < s.next) :
    p.localEnf.tracker.Current
        ((p.Child rn s).1.Release (((p.Child rn s).1.Add C (p.Child rn s).2).2))
      = p.localEnf.tracker.Current s ∧
    ∀ j ∈ p.chainIds,
      ((p.Child rn s).1.Release (((p.Child rn s).1.Add C (p.Child rn s).2).2)).vals j
        = s.vals j := by
  rcases hm : p.models with _ | ⟨m, rest⟩
  · have hchild : p.Child rn s = (noopChainedEnforcer, s) := by
      unfold ChainedEnforcer.Child
      rw [hm]
    rw [hchild]
    have hid : noopChainedEnforcer.Release ((noopChainedEnforcer.Add C s).2) = s := rfl
    rw [hid]
    exact ⟨rfl, fun j _ => rfl⟩
  · have hchild1 : (p.Child rn s).1
        = ChainedEnforcer.node rn { m with tracker := Tracker.normal s.next } p rest := by
      unfold ChainedEnforcer.Child
      rw [hm]
      rfl
    have hchild2 : (p.Child rn s).2 = (m.Clone s).2 := by
      unfold ChainedEnforcer.Child
      rw [hm]
    have hs1z : (m.Clone s).2.vals s.next = 0 := (Enforcer.Clone_spec m s).2.2.1
    have hs1 : ∀ j, j ≠ s.next → (m.Clone s).2.vals j = s.vals j :=
      (Enforcer.Clone_spec m s).2.2.2
    have hnm : s.next ∉ p.chainIds := fun hmem => absurd (hWF _ hmem) (Nat.lt_irrefl s.next)
    rw [hchild1, hchild2]
    set ch := ChainedEnforcer.node rn { m with tracker := Tracker.normal s.next } p rest
      with hch
    have hchain : ch.chainIds = s.next :: p.chainIds := by
      rw [hch]
      simp [ChainedEnforcer.chainIds, Tracker.ids]
    have hcnt : ch.chainIds.count s.next = 1 := by
      rw [hchain, List.count_cons_self, List.count_eq_zero_of_not_mem hnm]
    set s2 := (ch.Add C (m.Clone s).2).2 with hs2
    have hcur : ch.localEnf.tracker.Current s2 = C := by
      have hloc : ch.localEnf.tracker = Tracker.normal s.next := rfl
      rw [hloc]
      show s2.vals s.next = C
      rw [hs2, ChainedEnforcer.chainedAdd_vals, hcnt, hs1z]
      push_cast
      ring
    have hrel : ∀ j, (ch.Release s2).vals j = (m.Clone s).2.vals j := by
      intro j
      rw [ChainedEnforcer.Release_vals, hcur, hs2, ChainedEnforcer.chainedAdd_vals]
      ring
    constructor
    · cases hl : p.localEnf.tracker with
      | noop => simp [Tracker.Current]
      | normal i =>
        have hi : i ∈ p.chainIds := ChainedEnforcer.localId_mem_chainIds p i hl
        have hineq : i ≠ s.next := Nat.ne_of_lt (hWF i hi)
        show (ch.Release s2).vals i = s.vals i
        rw [hrel i, hs1 i hineq]
    · intro j hj
      have hjneq : j ≠ s.next := Nat.ne_of_lt (hWF j hj)
      rw [hrel j, hs1 j hjneq]

/-- Witness for C3: on a two-level fixture (parent threshold 10), creating a
child, adding 7 and releasing restores the parent total to its value in the
initial store. -/
theorem ChainedEnforcer.release_cancels_contribution_witness :
    (ChainedEnforcer.root "global" gEnf [qEnf]).localEnf.tracker.Current
        (((ChainedEnforcer.root "global" gEnf [qEnf]).Child "query" st0).1.Release
          ((((ChainedEnforcer.root "global" gEnf [qEnf]).Child "query" st0).1.Add 7
            ((ChainedEnforcer.root "global" gEnf [qEnf]).Child "query" st0).2).2))
      = (ChainedEnforcer.root "global" gEnf [qEnf]).localEnf.tracker.Current st0 :=
  (ChainedEnforcer.release_cancels_contribution (ChainedEnforcer.root "global" gEnf [qEnf])
    "query" 7 st0 (by decide)).1

/-- Counterexample to claim C6 as stated: on a concrete two-level tree
(parent threshold 100 at cell 0, child threshold 5 at cell 1), after adding 5
at the child, a second `Release` leaves the ancestor total exactly where the
first `Release` left it (at 0); it does not subtract the cost 5 of the node a
second time. -/
theorem ChainedEnforcer.double_release_counterexample :
    (child5of100.Release (child5of100.Release ((child5of100.Add 5 st0).2))).vals 0
      = (child5of100.Release ((child5of100.Add 5 st0).2)).vals 0 ∧
    (child5of100.Release ((child5of100.Add 5 st0).2)).vals 0 = 0 ∧
    ¬ (child5of100.Release (child5of100.Release ((child5of100.Add 5 st0).2))).vals 0
      = (child5of100.Release ((child5of100.Add 5 st0).2)).vals 0 - 5 := by
  norm_num [ChainedEnforcer.Release, ChainedEnforcer.State, ChainedEnforcer.Add,
    ChainedEnforcer.localEnf, ChainedEnforcer.wrapLocalResult, ChainedEnforcer.resourceName,
    Enforcer.State, Enforcer.Add, Enforcer.checkLimit, Tracker.Add, Tracker.Current,
    Store.reportOverLimit, child5of100, qEnf, mkTestEnforcer, root100, st0,
    NewStaticLimitManager, LimitManager.Limit]

/-- Claim C6 (amended): `Release` is meant to be called exactly once per node,
but calling it a second time on the same ChainedEnforcer node (whose local
tracker cell is not aliased by an ancestor) does not double-subtract: the
first `Release` zeroes the local cost of the node, so the second one subtracts
zero, leaving every tracker total, ancestors included, unchanged. The
double-subtraction hazard described by the spec applies to the older
`perQueryEnforcer.Release`, which subtracts the local total from the global
enforcer without zeroing the local tracker. -/
theorem ChainedEnforcer.second_release_noop (ce : ChainedEnforcer) (i : Nat) (s : Store)
    (hl : ce.localEnf.tracker = Tracker.normal i) (hc : ce.chainIds.count i = 1) :
    ∀ j, (ce.Release (ce.Release s)).vals j = (ce.Release s).vals j := by
  intro j
  have hzero : ce.localEnf.tracker.Current (ce.Release s) = 0 := by
    rw [hl]
    show (ce.Release s).vals i = 0
    rw [ChainedEnforcer.Release_vals, hc, hl]
    simp only [Tracker.Current]
    push_cast
    ring
  rw [ChainedEnforcer.Release_vals, hzero]
  ring

/-- Witness for the amended C6 on the concrete fixture used by the
counterexample. -/
theorem ChainedEnforcer.second_release_noop_witness :
    (child5of100.Release (child5of100.Release ((child5of100.Add 5 st0).2))).vals 1
      = (child5of100.Release ((child5of100.Add 5 st0).2)).vals 1 :=
  ChainedEnforcer.second_release_noop child5of100 1 ((child5of100.Add 5 st0).2) rfl
    (by decide) 1

/-- Claim C2: on a two-level tree (a root built from the global and query
level templates, plus n children created via Child), after any serialized
sequence of Add calls anywhere in the tree completes, the Current total of the
root tracker equals the sum of all deltas applied anywhere in the tree: no
update is lost or double-counted. -/
theorem ChainedEnforcer.rollup_serialized (rn crn : String) (g q : Enforcer) (r : Nat)
    (hg : g.tracker = Tracker.normal r) (s0 : Store) (hr : r < s0.next)
    (h0 : g.tracker.Current s0 = 0) (n : Nat) (ops : List (Nat × Cost)) :
    (ChainedEnforcer.root rn g [q]).localEnf.tracker.Current
      (runOps (ChainedEnforcer.root rn g [q])
        (mkChildren (ChainedEnforcer.root rn g [q]) crn n s0).1 ops
        (mkChildren (ChainedEnforcer.root rn g [q]) crn n s0).2)
      = (ops.map Prod.snd).sum := by
  have hchainR : (ChainedEnforcer.root rn g [q]).chainIds = [r] := by
    simp [ChainedEnforcer.chainIds, hg, Tracker.ids]
  have hcR : (ChainedEnforcer.root rn g [q]).chainIds.count r = 1 := by
    rw [hchainR]
    simp
  have hch : ∀ ch ∈ (mkChildren (ChainedEnforcer.root rn g [q]) crn n s0).1,
      ch.chainIds.count r = 1 := by
    intro ch hmem
    obtain ⟨t, ht, hcheq⟩ :=
      mkChildren_mem (ChainedEnforcer.root rn g [q]) crn q [] rfl n s0 ch hmem
    rw [hcheq]
    have hsplit : (ChainedEnforcer.node crn { q with tracker := Tracker.normal t }
        (ChainedEnforcer.root rn g [q]) []).chainIds
        = t :: (ChainedEnforcer.root rn g [q]).chainIds := by
      simp [ChainedEnforcer.chainIds, Tracker.ids]
    rw [hsplit, hchainR]
    have htr : t ≠ r := by omega
    simp [List.count_cons, htr]
  have hfin := runOps_vals (ChainedEnforcer.root rn g [q])
    (mkChildren (ChainedEnforcer.root rn g [q]) crn n s0).1 r hcR hch ops
    (mkChildren (ChainedEnforcer.root rn g [q]) crn n s0).2
  have hloc : (ChainedEnforcer.root rn g [q]).localEnf.tracker = Tracker.normal r := hg
  rw [hloc]
  show (runOps (ChainedEnforcer.root rn g [q])
      (mkChildren (ChainedEnforcer.root rn g [q]) crn n s0).1 ops
      (mkChildren (ChainedEnforcer.root rn g [q]) crn n s0).2).vals r
    = (ops.map Prod.snd).sum
  rw [hfin, mkChildren_vals (ChainedEnforcer.root rn g [q]) crn n s0 r hr]
  have hz : s0.vals r = 0 := by
    rw [hg] at h0
    exact h0
  rw [hz]
  ring

/-- Witness for C2: two children, adds of 3 and 4 at the children and 2 at the
root, root total 9. -/
theorem ChainedEnforcer.rollup_serialized_witness :
    (ChainedEnforcer.root "global" gEnf [qEnf]).localEnf.tracker.Current
      (runOps (ChainedEnforcer.root "global" gEnf [qEnf])
        (mkChildren (ChainedEnforcer.root "global" gEnf [qEnf]) "query" 2 st0).1
        [(1, 3), (2, 4), (0, 2)]
        (mkChildren (ChainedEnforcer.root "global" gEnf [qEnf]) "query" 2 st0).2)
      = 9 := by
  have h := ChainedEnforcer.rollup_serialized "global" "query" gEnf qEnf 0 rfl st0
    (by decide) rfl 2 [(1, 3), (2, 4), (0, 2)]
  rw [h]
  norm_num

/-- Claim C5 is right about the error value and wrong about the metrics: with
a disabled limit (threshold 1) and an added cost of 1000, `Add` returns a nil
error and the new total 1000 (the threshold comparison would flag it), but the
over-limit counters are untouched: `checkLimit` returns early on a disabled
limit before reaching the reporter, contradicting both the spec and the
comment in the source that says the metric is emitted even when not
enabled. -/
theorem Enforcer.disabled_limit_no_metric :
    ((mkTestEnforcer 1 false 0).Add 1000 st0).1.Error = none ∧
    ((mkTestEnforcer 1 false 0).Add 1000 st0).1.Cost = 1000 ∧
    ¬ ((1000 : Cost) < (1 : Cost)) ∧
    ((mkTestEnforcer 1 false 0).Add 1000 st0).2.overLimit = 0 ∧
    ((mkTestEnforcer 1 false 0).Add 1000 st0).2.overLimitAndEnabled = 0 := by
  refine ⟨rfl, ?_, by norm_num, rfl, rfl⟩
  norm_num [Enforcer.Add, Enforcer.checkLimit, Tracker.Add, mkTestEnforcer, st0,
    NewStaticLimitManager, LimitManager.Limit]

/-- Claim C9: `Close` on an AccountedBlock releases the enforcer of the block
exactly once, before closing the wrapped block, and returns the result of the
wrapped Close unchanged, whether that result is a success or a failure; the
store after Close is exactly the store after one Release, so the accumulated
cost of the block is subtracted from its scope and every ancestor scope. -/
theorem AccountedBlock.Close_releases (ab : AccountedBlock) (s : Store) :
    ab.Close s = (ab.block.closeErr, ab.enforcer.Release s) ∧
    ∀ j, (ab.Close s).2.vals j
      = s.vals j - (ab.enforcer.chainIds.count j : ℚ)
          * (ab.enforcer.localEnf.tracker.Current s) := by
  refine ⟨rfl, ?_⟩
  intro j
  show (ab.enforcer.Release s).vals j = _
  exact ChainedEnforcer.Release_vals ab.enforcer s j

/-- Witness for C9 on a failing wrapped Close: the release still happens and
the error is propagated unchanged. -/
theorem AccountedBlock.Close_releases_witness :
    (NewAccountedBlock { closeErr := some "boom" } child5of100).Close st0
      = (some "boom", child5of100.Release st0) :=
  (AccountedBlock.Close_releases (NewAccountedBlock { closeErr := some "boom" } child5of100)
    st0).1
